import Mathlib

/-!
Shallow embedding of the GearRatio application core (src/app.rs).

The program is a gear-ratio calculator.  Its core state holds two tooth
counts (u32), a user-given target ratio and a derived actual ratio (f32),
and a marker for which of the three columns is locked.  The functions
embedded here are `Column::get_missing`, `RitzelApp::compute_ratio`,
`compute_l_teeth`, `compute_r_teeth`, `recompute_from`, the decrement
branch of `number_spinner`, and the event dispatch of
`gear_column` / `ratio_column`.

Modelling conventions:
* u32 values are `ℕ`; the Rust float-to-u32 `as` cast saturates and is
  modelled by `u32_sat`.
* f32 values are modelled by exact rationals `ℚ`.  The arithmetic the
  claims exercise (`right / left`, `right / given_ratio`,
  `left * given_ratio`) is exact in f32 for the concrete inputs used in
  witnesses and counterexamples below (all values involved are exactly
  representable, e.g. 1.5, 0.25, 10.5), so the rational model agrees with
  the f32 computation there.  `f32::round` rounds to the nearest integer
  with ties away from zero; `roundHalfAway` is that rule on `ℚ`.
  Division by zero yields 0 in `ℚ` where f32 yields inf; no claim below
  depends on that value.
* The display strings (`t_str`, `ar_str`, `gr_str`) are formatted mirrors
  of the numeric fields, written right next to each numeric update; they
  carry no independent state and are omitted.  `SideVars` (a tooth count
  plus its display string) is therefore flattened into the two tooth-count
  fields of the state.
-/

/-- Rust enum `Column` with discriminants Left = 0b001, Ratio = 0b010,
Right = 0b100 (src/app.rs lines 18-23). -/
inductive Column where
  | Left
  | Ratio
  | Right
deriving DecidableEq, Repr

/-- Discriminant value of a `Column` (the `c as u32` cast). -/
def Column.toBits : Column → Nat
  | .Left => 0b001
  | .Ratio => 0b010
  | .Right => 0b100

/-- Derived `FromPrimitive::from_u32` for `Column`: succeeds exactly on the
three discriminant values. -/
def Column.fromU32 : Nat → Option Column
  | 0b001 => some .Left
  | 0b010 => some .Ratio
  | 0b100 => some .Right
  | _ => none

/-- Bitwise complement `!i` on a u32: `2^32 - 1 - i` for `i < 2^32`. -/
def u32not (i : Nat) : Nat := 4294967295 - i

/-- Embeds `Column::get_missing` (src/app.rs lines 27-33).  The
`assert_ne!(c1, c2)` panic and the `unwrap()` panic on a failed
`from_u32` are both modelled as `none`. -/
def Column.get_missing (c1 c2 : Column) : Option Column :=
  if c1 = c2 then none
  else Column.fromU32 (u32not (c1.toBits ||| c2.toBits) &&& 0b111)

/-- Rust `f32::round` on the rational model: round to the nearest integer,
ties away from zero. -/
def roundHalfAway (q : ℚ) : ℤ :=
  if 0 ≤ q then ⌊q + 1/2⌋ else -⌊-q + 1/2⌋

/-- Rust float-to-integer `as u32` cast applied to an integral float:
saturating (negative values to 0, values above u32::MAX to u32::MAX). -/
def u32_sat (z : ℤ) : ℕ :=
  if z < 0 then 0 else min z.toNat 4294967295

/-- Core state of `RitzelApp` (src/app.rs lines 71-79): the two `SideVars`
tooth counts, the given and actual ratios, and the locked column.  The
display-string fields are omitted (see module comment). -/
structure RitzelApp where
  left_teeth : ℕ
  right_teeth : ℕ
  given_ratio : ℚ
  actual_ratio : ℚ
  locked_column : Column
deriving DecidableEq, Repr

/-- Embeds `RitzelApp::new` (src/app.rs lines 190-200): the startup state. -/
def RitzelApp.new : RitzelApp where
  left_teeth := 10
  right_teeth := 15
  given_ratio := 3/2
  actual_ratio := 3/2
  locked_column := .Ratio

/-- Embeds `RitzelApp::compute_ratio` (src/app.rs lines 204-207):
`actual_ratio = right.teeth as f32 / left.teeth as f32`. -/
def RitzelApp.compute_ratio (s : RitzelApp) : RitzelApp :=
  { s with actual_ratio := (s.right_teeth : ℚ) / (s.left_teeth : ℚ) }

/-- Embeds `RitzelApp::compute_l_teeth` (src/app.rs lines 209-215):
`left.teeth = (right.teeth as f32 / given_ratio).round() as u32`, then
`compute_ratio`.  Note: no clamping of the result. -/
def RitzelApp.compute_l_teeth (s : RitzelApp) : RitzelApp :=
  RitzelApp.compute_ratio
    { s with left_teeth := u32_sat (roundHalfAway ((s.right_teeth : ℚ) / s.given_ratio)) }

/-- Embeds `RitzelApp::compute_r_teeth` (src/app.rs lines 217-223):
`right.teeth = (left.teeth as f32 * given_ratio).round() as u32`, then
`compute_ratio`.  Note: no clamping of the result. -/
def RitzelApp.compute_r_teeth (s : RitzelApp) : RitzelApp :=
  RitzelApp.compute_ratio
    { s with right_teeth := u32_sat (roundHalfAway ((s.left_teeth : ℚ) * s.given_ratio)) }

/-- Embeds `RitzelApp::recompute_from` (src/app.rs lines 226-233):
dispatch on the missing (free) column; `none` when `get_missing`
panics. -/
def RitzelApp.recompute_from (s : RitzelApp) (column : Column) : Option RitzelApp :=
  (Column.get_missing column s.locked_column).map fun c =>
    match c with
    | .Left => s.compute_l_teeth
    | .Ratio => s.compute_ratio
    | .Right => s.compute_r_teeth

/-- Numeric value held by a column of the state: a tooth count for the
gear columns, the given ratio for the ratio column. -/
def RitzelApp.slot_value (s : RitzelApp) : Column → ℚ
  | .Left => (s.left_teeth : ℚ)
  | .Ratio => s.given_ratio
  | .Right => (s.right_teeth : ℚ)

/-- Decrement branch of `number_spinner` (src/app.rs lines 128-137)
instantiated at `T = u32` (the tooth-count spinners, which are called with
`step = 1, min_value = 1`): `T::from_f32(0.00001).unwrap()` is 0 for u32,
so the guard is `value >= min_value + step`, and the value only decreases
by `step` when the result stays at or above `min_value`. -/
def spinner_dec (value min_value step : ℕ) : ℕ :=
  if min_value + step ≤ value then value - step else value

/-- Confirmed-edit events the UI layer feeds the core: a tooth-count edit
on a gear column, an edit of the given ratio, or clicking a locked
toggle. -/
inductive UiEvent where
  | editTeeth : Column → ℕ → UiEvent
  | editRatio : ℚ → UiEvent
  | setLock : Column → UiEvent

/-- Tooth-count write of `gear_column` (src/app.rs lines 237-241): the
`Left` column edits the left `SideVars`, any other column the right one. -/
def RitzelApp.set_teeth (s : RitzelApp) (column : Column) (v : ℕ) : RitzelApp :=
  match column with
  | .Left => { s with left_teeth := v }
  | _ => { s with right_teeth := v }

/-- Event dispatch of `gear_column` (src/app.rs lines 235-247) and
`ratio_column` (lines 249-268).  A spinner is interactive only when its
column is not locked, so an edit of the locked column is a no-op; a
confirmed edit writes the value and calls `recompute_from`; the
`selectable_value` locked toggle only assigns `locked_column`, and no
recompute call is attached to it. -/
def RitzelApp.ui_step (s : RitzelApp) : UiEvent → Option RitzelApp
  | .editTeeth c v =>
      if c = s.locked_column then some s
      else (s.set_teeth c v).recompute_from c
  | .editRatio v =>
      if s.locked_column = .Ratio then some s
      else { s with given_ratio := v }.recompute_from .Ratio
  | .setLock c => some { s with locked_column := c }

/-! Helper lemmas: the value of `Column.get_missing` on each of the nine
input pairs, read off from the bit arithmetic. -/

@[simp] theorem Column.gm_left_left : Column.get_missing .Left .Left = none := by decide

@[simp] theorem Column.gm_left_ratio : Column.get_missing .Left .Ratio = some .Right := by decide

@[simp] theorem Column.gm_left_right : Column.get_missing .Left .Right = some .Ratio := by decide

@[simp] theorem Column.gm_ratio_left : Column.get_missing .Ratio .Left = some .Right := by decide

@[simp] theorem Column.gm_ratio_ratio : Column.get_missing .Ratio .Ratio = none := by decide

@[simp] theorem Column.gm_ratio_right : Column.get_missing .Ratio .Right = some .Left := by decide

@[simp] theorem Column.gm_right_left : Column.get_missing .Right .Left = some .Ratio := by decide

@[simp] theorem Column.gm_right_ratio : Column.get_missing .Right .Ratio = some .Left := by decide

@[simp] theorem Column.gm_right_right : Column.get_missing .Right .Right = none := by decide

/-- Claim C3: for every pair of distinct Slots, `get_missing` returns the
unique third Slot ({Left,Ratio} to Right, {Left,Right} to Ratio,
{Ratio,Right} to Left), is order independent, never returns one of its
inputs, and its outputs cover all three Slots. -/
theorem get_missing_mapping_symm_bijection :
    (Column.get_missing .Left .Ratio = some .Right
      ∧ Column.get_missing .Left .Right = some .Ratio
      ∧ Column.get_missing .Ratio .Right = some .Left)
    ∧ (∀ a b : Column, a ≠ b → Column.get_missing a b = Column.get_missing b a)
    ∧ (∀ a b : Column, a ≠ b → ∀ c : Column,
        Column.get_missing a b = some c → c ≠ a ∧ c ≠ b)
    ∧ (∀ c : Column, ∃ a b : Column, a ≠ b ∧ Column.get_missing a b = some c) := by
  refine ⟨⟨by decide, by decide, by decide⟩, ?_, ?_, ?_⟩
  · intro a b
    cases a <;> cases b <;> decide
  · intro a b h c
    cases a <;> cases b <;> cases c <;> revert h <;> decide
  · intro c
    cases c
    · exact ⟨.Ratio, .Right, by decide, by decide⟩
    · exact ⟨.Left, .Right, by decide, by decide⟩
    · exact ⟨.Left, .Ratio, by decide, by decide⟩

/-- Witness for C3: the symmetry part applied at the concrete pair
(Ratio, Left). -/
theorem get_missing_mapping_witness :
    Column.get_missing .Ratio .Left = Column.get_missing .Left .Ratio :=
  get_missing_mapping_symm_bijection.2.1 .Ratio .Left (by decide)

/-- Claim C9: `get_missing` fails (assertion or unwrap panic, modelled as
`none`) exactly when its two arguments are equal; on every distinct pair
it returns normally. -/
theorem get_missing_none_iff_eq :
    ∀ c1 c2 : Column, (Column.get_missing c1 c2 = none ↔ c1 = c2) := by
  intro c1 c2
  cases c1 <;> cases c2 <;> decide

/-- Claim C8: both teeth-recomputing branches apply the same rounding
function `roundHalfAway`; that function rounds to the nearest integer
(within one half), sends ties at fractional part one half away from zero,
and is odd; in particular with left_teeth = 7 and given_ratio = 3/2 the
free Right slot becomes round(10.5) = 11. -/
theorem round_half_away_consistent :
    (∀ s : RitzelApp, s.compute_l_teeth.left_teeth
        = u32_sat (roundHalfAway ((s.right_teeth : ℚ) / s.given_ratio)))
    ∧ (∀ s : RitzelApp, s.compute_r_teeth.right_teeth
        = u32_sat (roundHalfAway ((s.left_teeth : ℚ) * s.given_ratio)))
    ∧ (∀ q : ℚ, |q - (roundHalfAway q : ℚ)| ≤ 1/2)
    ∧ (∀ q : ℚ, 0 ≤ q → q - (⌊q⌋ : ℚ) = 1/2 → roundHalfAway q = ⌊q⌋ + 1)
    ∧ (∀ q : ℚ, roundHalfAway (-q) = -roundHalfAway q)
    ∧ (RitzelApp.mk 7 15 (3/2) (3/2) .Ratio).compute_r_teeth.right_teeth = 11 := by
  refine ⟨fun s => rfl, fun s => rfl, ?_, ?_, ?_, ?_⟩
  · intro q
    rcases le_or_lt 0 q with h | h
    · rw [roundHalfAway, if_pos h]
      have h1 := Int.floor_le (q + 1/2)
      have h2 := Int.lt_floor_add_one (q + 1/2)
      rw [abs_le]
      constructor <;> linarith
    · rw [roundHalfAway, if_neg (not_le.mpr h)]
      have h1 := Int.floor_le (-q + 1/2)
      have h2 := Int.lt_floor_add_one (-q + 1/2)
      rw [abs_le]
      constructor <;> push_cast <;> linarith
  · intro q h0 htie
    rw [roundHalfAway, if_pos h0]
    have hq : q + 1/2 = ((⌊q⌋ + 1 : ℤ) : ℚ) := by push_cast; linarith
    rw [hq, Int.floor_intCast]
  · intro q
    rcases lt_trichotomy q 0 with h | h | h
    · rw [roundHalfAway, if_pos (by linarith : (0:ℚ) ≤ -q),
        roundHalfAway, if_neg (not_le.mpr h), neg_neg]
    · subst h
      norm_num [roundHalfAway]
    · rw [roundHalfAway, if_neg (by simp; linarith : ¬ (0:ℚ) ≤ -q),
        roundHalfAway, if_pos (le_of_lt h), neg_neg]
  · norm_num [RitzelApp.compute_r_teeth, RitzelApp.compute_ratio, roundHalfAway, u32_sat]
    decide

/-- Witness for C8: the tie rule applied at the concrete tie 21/2, whose
floor is 10, giving round(10.5) = 11. -/
theorem round_half_away_consistent_witness :
    roundHalfAway (21/2 : ℚ) = ⌊(21/2 : ℚ)⌋ + 1 :=
  round_half_away_consistent.2.2.2.1 (21/2) (by norm_num) (by norm_num)

/-- Claim C1: for every state with at least one tooth on each gear and a
positive given ratio, and every edited column distinct from the locked
one, `recompute_from` leaves the state with
actual_ratio = right_teeth / left_teeth, whichever branch ran. -/
theorem recompute_from_actual_ratio_invariant :
    ∀ (s : RitzelApp) (e : Column), 1 ≤ s.left_teeth → 1 ≤ s.right_teeth →
      0 < s.given_ratio → e ≠ s.locked_column →
      ∀ s' : RitzelApp, s.recompute_from e = some s' →
        s'.actual_ratio = (s'.right_teeth : ℚ) / (s'.left_teeth : ℚ) := by
  intro s e h1 h2 h3 hne s' h
  obtain ⟨lt, rt, gr, ar, lc⟩ := s
  cases e <;> cases lc <;>
    simp_all [RitzelApp.recompute_from, RitzelApp.compute_l_teeth,
      RitzelApp.compute_r_teeth, RitzelApp.compute_ratio] <;>
    subst h <;> rfl

/-- Witness for C1: the invariant theorem applied at the startup state with
the Left column edited (free slot Right; the recompute reproduces the
startup state, whose actual_ratio is 15/10). -/
theorem recompute_from_actual_ratio_invariant_witness :
    RitzelApp.new.actual_ratio = (RitzelApp.new.right_teeth : ℚ) / (RitzelApp.new.left_teeth : ℚ) :=
  recompute_from_actual_ratio_invariant RitzelApp.new .Left (by decide) (by decide)
    (by norm_num [RitzelApp.new]) (by decide) RitzelApp.new
    (by norm_num [RitzelApp.new, RitzelApp.recompute_from, RitzelApp.compute_r_teeth,
      RitzelApp.compute_ratio, roundHalfAway, u32_sat]; simp; norm_num)

/-- Claim C6: `recompute_from` writes only the free slot's value and
actual_ratio: the given ratio and the locked marker are unchanged, the
edited and locked slots keep their values, actual_ratio is refreshed to
right/left, and a tooth count changes only when it is the free slot. -/
theorem recompute_from_frame :
    ∀ (s : RitzelApp) (e : Column) (s' : RitzelApp), s.recompute_from e = some s' →
      s'.given_ratio = s.given_ratio
      ∧ s'.locked_column = s.locked_column
      ∧ s'.slot_value e = s.slot_value e
      ∧ s'.slot_value s.locked_column = s.slot_value s.locked_column
      ∧ s'.actual_ratio = (s'.right_teeth : ℚ) / (s'.left_teeth : ℚ)
      ∧ (∀ c : Column, Column.get_missing e s.locked_column = some c →
          (c ≠ .Left → s'.left_teeth = s.left_teeth)
          ∧ (c ≠ .Right → s'.right_teeth = s.right_teeth)) := by
  intro s e s' h
  obtain ⟨lt, rt, gr, ar, lc⟩ := s
  cases e <;> cases lc <;>
    simp_all [RitzelApp.recompute_from, RitzelApp.compute_l_teeth,
      RitzelApp.compute_r_teeth, RitzelApp.compute_ratio, RitzelApp.slot_value] <;>
    subst h <;> simp [RitzelApp.slot_value]

/-- Witness for C6: the frame theorem applied at a concrete state with the
Ratio column edited and Left locked (free slot Right), projected to the
given-ratio and locked-marker frame conditions. -/
theorem recompute_frame_witness :
    (RitzelApp.mk 10 15 (3/2) (3/2) .Left).given_ratio
        = (RitzelApp.mk 10 15 (3/2) (3/2) .Left).given_ratio
    ∧ (RitzelApp.mk 10 15 (3/2) (3/2) .Left).locked_column
        = (RitzelApp.mk 10 15 (3/2) (3/2) .Left).locked_column :=
  let h := recompute_from_frame (RitzelApp.mk 10 15 (3/2) (3/2) .Left) .Ratio
    (RitzelApp.mk 10 15 (3/2) (3/2) .Left)
    (by norm_num [RitzelApp.recompute_from, RitzelApp.compute_r_teeth,
      RitzelApp.compute_ratio, roundHalfAway, u32_sat]; simp; norm_num)
  ⟨h.1, h.2.1⟩

/-- Claim C7: clicking a locked toggle is a pure state transition: it
replaces only the locked marker and triggers no recomputation, so the
tooth counts and both ratios are exactly those of the previous state. -/
theorem set_lock_pure_transition :
    ∀ (s : RitzelApp) (c : Column) (s' : RitzelApp),
      s.ui_step (UiEvent.setLock c) = some s' →
      s'.left_teeth = s.left_teeth ∧ s'.right_teeth = s.right_teeth
      ∧ s'.given_ratio = s.given_ratio ∧ s'.actual_ratio = s.actual_ratio
      ∧ s'.locked_column = c := by
  intro s c s' h
  simp only [RitzelApp.ui_step, Option.some.injEq] at h
  subst h
  exact ⟨rfl, rfl, rfl, rfl, rfl⟩

/-- Witness for C7: the pure-transition theorem applied at the startup
state with the lock moved to the Left column. -/
theorem set_lock_pure_transition_witness :
    (RitzelApp.mk 10 15 (3/2) (3/2) .Left).left_teeth = RitzelApp.new.left_teeth
    ∧ (RitzelApp.mk 10 15 (3/2) (3/2) .Left).right_teeth = RitzelApp.new.right_teeth
    ∧ (RitzelApp.mk 10 15 (3/2) (3/2) .Left).given_ratio = RitzelApp.new.given_ratio
    ∧ (RitzelApp.mk 10 15 (3/2) (3/2) .Left).actual_ratio = RitzelApp.new.actual_ratio
    ∧ (RitzelApp.mk 10 15 (3/2) (3/2) .Left).locked_column = .Left :=
  set_lock_pure_transition RitzelApp.new .Left (RitzelApp.mk 10 15 (3/2) (3/2) .Left) rfl

/-- Claim C10: when the locked column is not Ratio, `recompute_from Ratio`
is idempotent: a second call with no intervening edits returns the first
call's state unchanged, in particular the same actual_ratio. -/
theorem recompute_from_ratio_idempotent :
    ∀ (s s' : RitzelApp), s.locked_column ≠ .Ratio →
      s.recompute_from .Ratio = some s' →
      s'.recompute_from .Ratio = some s' := by
  intro s s' hne h
  obtain ⟨lt, rt, gr, ar, lc⟩ := s
  cases lc
  case Left =>
    simp only [RitzelApp.recompute_from, Column.gm_ratio_left, Option.map_some',
      Option.some.injEq] at h
    subst h
    simp [RitzelApp.recompute_from, RitzelApp.compute_r_teeth, RitzelApp.compute_ratio]
  case Ratio => exact absurd rfl hne
  case Right =>
    simp only [RitzelApp.recompute_from, Column.gm_ratio_right, Option.map_some',
      Option.some.injEq] at h
    subst h
    simp [RitzelApp.recompute_from, RitzelApp.compute_l_teeth, RitzelApp.compute_ratio]

/-- Witness for C10: the idempotence theorem applied at a concrete state
with Right locked, where the first recompute reproduces the state
itself. -/
theorem recompute_from_ratio_idempotent_witness :
    (RitzelApp.mk 10 15 (3/2) (3/2) .Right).recompute_from .Ratio
      = some (RitzelApp.mk 10 15 (3/2) (3/2) .Right) :=
  recompute_from_ratio_idempotent (RitzelApp.mk 10 15 (3/2) (3/2) .Right)
    (RitzelApp.mk 10 15 (3/2) (3/2) .Right) (by decide)
    (by norm_num [RitzelApp.recompute_from, RitzelApp.compute_l_teeth,
      RitzelApp.compute_ratio, roundHalfAway, u32_sat]; simp; norm_num)

/-- Claim C2 counterexample: in the state (left 10, right 1, ratio 4,
Right locked), editing the ratio makes Left the free slot; the claim's
clamped value round(1/4) max 1 is 1, but the code stores round(1/4) = 0
unclamped (1.0 / 4.0 and its rounding are exact in f32). -/
theorem recompute_from_no_clamp_cex :
    ((RitzelApp.mk 10 1 4 (1/2) .Right).recompute_from .Ratio).map RitzelApp.left_teeth
        = some 0
    ∧ max 1 (u32_sat (roundHalfAway ((1 : ℚ) / 4))) = 1
    ∧ ((RitzelApp.mk 10 1 4 (1/2) .Right).recompute_from .Ratio).map RitzelApp.left_teeth
        ≠ some (max 1 (u32_sat (roundHalfAway ((1 : ℚ) / 4)))) := by
  have h : roundHalfAway ((1 : ℚ) / 4) = 0 := by norm_num [roundHalfAway]
  have h' : roundHalfAway ((4 : ℚ)⁻¹) = 0 := by norm_num [roundHalfAway]
  refine ⟨?_, ?_, ?_⟩ <;>
    simp [RitzelApp.recompute_from, RitzelApp.compute_l_teeth, RitzelApp.compute_ratio,
      h, h', u32_sat]

/-- Claim C2 (amended): for every state, when the free slot is Left,
`recompute_from` sets left_teeth to the saturating u32 cast of
round(right_teeth / given_ratio) - with no clamping to a minimum of 1, so
the result can be 0 - and then recomputes actual_ratio; when the free slot
is Right it sets right_teeth to the saturating u32 cast of
round(left_teeth * given_ratio), likewise unclamped, then recomputes
actual_ratio. -/
theorem recompute_from_free_slot_formula :
    ∀ (s : RitzelApp) (e : Column) (s' : RitzelApp),
      (Column.get_missing e s.locked_column = some .Left →
        s.recompute_from e = some s' →
        s'.left_teeth = u32_sat (roundHalfAway ((s.right_teeth : ℚ) / s.given_ratio))
        ∧ s'.right_teeth = s.right_teeth
        ∧ s'.actual_ratio = (s'.right_teeth : ℚ) / (s'.left_teeth : ℚ))
      ∧ (Column.get_missing e s.locked_column = some .Right →
        s.recompute_from e = some s' →
        s'.right_teeth = u32_sat (roundHalfAway ((s.left_teeth : ℚ) * s.given_ratio))
        ∧ s'.left_teeth = s.left_teeth
        ∧ s'.actual_ratio = (s'.right_teeth : ℚ) / (s'.left_teeth : ℚ)) := by
  intro s e s'
  constructor <;> intro h1 h2 <;>
    simp only [RitzelApp.recompute_from, h1, Option.map_some', Option.some.injEq] at h2 <;>
    subst h2 <;>
    exact ⟨rfl, rfl, rfl⟩

/-- Witness for C2 (amended): the Left-free branch applied at the state
(left 10, right 15, ratio 3/2, Right locked) with the ratio edited; the
recompute stores round(15 / 1.5) = 10. -/
theorem recompute_from_free_slot_formula_witness :
    (RitzelApp.mk 10 15 (3/2) (3/2) .Right).left_teeth
        = u32_sat (roundHalfAway ((15 : ℚ) / (3/2)))
    ∧ (RitzelApp.mk 10 15 (3/2) (3/2) .Right).right_teeth = 15
    ∧ (RitzelApp.mk 10 15 (3/2) (3/2) .Right).actual_ratio
        = ((RitzelApp.mk 10 15 (3/2) (3/2) .Right).right_teeth : ℚ)
          / ((RitzelApp.mk 10 15 (3/2) (3/2) .Right).left_teeth : ℚ) :=
  (recompute_from_free_slot_formula (RitzelApp.mk 10 15 (3/2) (3/2) .Right) .Ratio
      (RitzelApp.mk 10 15 (3/2) (3/2) .Right)).1
    (by decide)
    (by norm_num [RitzelApp.recompute_from, RitzelApp.compute_l_teeth,
      RitzelApp.compute_ratio, roundHalfAway, u32_sat]; simp; norm_num)

/-- Claim C4 counterexample: the state (left 1, right 10, ratio 1/4,
Left locked) satisfies the claimed invariant (teeth at least 1, positive
ratio), yet editing the ratio recomputes the free Right slot to
round(1 * 0.25) = 0, below 1 (1.0 * 0.25 and its rounding are exact in
f32), so the invariant is not preserved. -/
theorem teeth_invariant_not_preserved_cex :
    1 ≤ (RitzelApp.mk 1 10 (1/4) (1/2) .Left).left_teeth
    ∧ 1 ≤ (RitzelApp.mk 1 10 (1/4) (1/2) .Left).right_teeth
    ∧ 0 < (RitzelApp.mk 1 10 (1/4) (1/2) .Left).given_ratio
    ∧ ((RitzelApp.mk 1 10 (1/4) (1/2) .Left).recompute_from .Ratio).map RitzelApp.right_teeth
        = some 0 := by
  have h : roundHalfAway ((1 : ℚ) * (1/4)) = 0 := by norm_num [roundHalfAway]
  have h' : roundHalfAway ((4 : ℚ)⁻¹) = 0 := by norm_num [roundHalfAway]
  refine ⟨by decide, by decide, by norm_num, ?_⟩
  simp [RitzelApp.recompute_from, RitzelApp.compute_r_teeth, RitzelApp.compute_ratio,
    h, h', u32_sat]

/-- Claim C4 (amended): the startup state satisfies left_teeth,
right_teeth at least 1 and given_ratio positive, and a spinner decrement
never takes a value below its configured minimum (1 for the teeth
spinners) whatever the step magnitude; but `recompute_from` performs no
clamping: a recomputed tooth count is at least 1 exactly when the rounded
value is at least 1, and is 0 when the rounded value is below 1. -/
theorem teeth_clamping_amended :
    (1 ≤ RitzelApp.new.left_teeth ∧ 1 ≤ RitzelApp.new.right_teeth
      ∧ 0 < RitzelApp.new.given_ratio)
    ∧ (∀ value min_value step : ℕ, min_value ≤ value →
        min_value ≤ spinner_dec value min_value step)
    ∧ (∀ s : RitzelApp, 1 ≤ roundHalfAway ((s.right_teeth : ℚ) / s.given_ratio) →
        1 ≤ s.compute_l_teeth.left_teeth)
    ∧ (∀ s : RitzelApp, 1 ≤ roundHalfAway ((s.left_teeth : ℚ) * s.given_ratio) →
        1 ≤ s.compute_r_teeth.right_teeth)
    ∧ (∀ s : RitzelApp, roundHalfAway ((s.right_teeth : ℚ) / s.given_ratio) < 1 →
        s.compute_l_teeth.left_teeth = 0)
    ∧ (∀ s : RitzelApp, roundHalfAway ((s.left_teeth : ℚ) * s.given_ratio) < 1 →
        s.compute_r_teeth.right_teeth = 0) := by
  have hsat1 : ∀ z : ℤ, 1 ≤ z → 1 ≤ u32_sat z := by
    intro z hz
    simp only [u32_sat, if_neg (by omega : ¬ z < 0)]
    omega
  have hsat0 : ∀ z : ℤ, z < 1 → u32_sat z = 0 := by
    intro z hz
    simp only [u32_sat]
    split <;> omega
  refine ⟨⟨by decide, by decide, by norm_num [RitzelApp.new]⟩, ?_, ?_, ?_, ?_, ?_⟩
  · intro value min_value step h
    simp only [spinner_dec]
    split <;> omega
  · intro s h
    exact hsat1 _ h
  · intro s h
    exact hsat1 _ h
  · intro s h
    exact hsat0 _ h
  · intro s h
    exact hsat0 _ h

/-- Witness for C4 (amended): the decrement clamp applied at value 1 with
step 5 (the value stays 1), and the recompute lower bound applied at the
startup state, where round(10 * 1.5) = 15 is at least 1. -/
theorem teeth_clamping_amended_witness :
    1 ≤ spinner_dec 1 1 5 ∧ 1 ≤ RitzelApp.new.compute_r_teeth.right_teeth :=
  ⟨teeth_clamping_amended.2.1 1 1 5 (by decide),
    teeth_clamping_amended.2.2.2.1 RitzelApp.new
      (by norm_num [RitzelApp.new, roundHalfAway])⟩

/-- Claim C5 counterexample: starting from (left 10, right 15, ratio 3/2)
with Right locked, editing left_teeth to 7 makes Ratio the free slot, so
right_teeth stays 15 - it is not recomputed to round(10.5), refuting both
allowed outcomes 10 and 11 - and actual_ratio becomes 15/7. -/
theorem locked_right_edit_left_cex :
    ((RitzelApp.mk 10 15 (3/2) (3/2) .Right).ui_step (UiEvent.editTeeth .Left 7)).map
        RitzelApp.right_teeth = some 15
    ∧ ((RitzelApp.mk 10 15 (3/2) (3/2) .Right).ui_step (UiEvent.editTeeth .Left 7)).map
        RitzelApp.right_teeth ≠ some 10
    ∧ ((RitzelApp.mk 10 15 (3/2) (3/2) .Right).ui_step (UiEvent.editTeeth .Left 7)).map
        RitzelApp.right_teeth ≠ some 11
    ∧ ((RitzelApp.mk 10 15 (3/2) (3/2) .Right).ui_step (UiEvent.editTeeth .Left 7)).map
        RitzelApp.actual_ratio = some ((15 : ℚ) / 7) := by
  refine ⟨?_, ?_, ?_, ?_⟩ <;>
    simp [RitzelApp.ui_step, RitzelApp.set_teeth, RitzelApp.recompute_from,
      RitzelApp.compute_ratio]

/-- Claim C5 (amended): in a state with given_ratio = 1.5 and locked =
Ratio (so that Right is the free slot), after left_teeth is edited to 7
and `recompute_from(Left)` runs, right_teeth is recomputed to
round(7 * 1.5) = round(10.5) = 11 (f32 rounds ties away from zero), and
actual_ratio becomes 11/7, which is not exactly 3/2. -/
theorem rounding_divergence_locked_ratio :
    (RitzelApp.mk 10 15 (3/2) (3/2) .Ratio).ui_step (UiEvent.editTeeth .Left 7)
        = some (RitzelApp.mk 7 11 (3/2) ((11 : ℚ) / 7) .Ratio)
    ∧ ((11 : ℚ) / 7 ≠ 3/2) := by
  have h : roundHalfAway ((7 : ℚ) * (3/2)) = 11 := by norm_num [roundHalfAway]
  constructor
  · simp [RitzelApp.ui_step, RitzelApp.set_teeth, RitzelApp.recompute_from,
      RitzelApp.compute_r_teeth, RitzelApp.compute_ratio, h, u32_sat]
  · norm_num
